import Mathlib

/-!
Shallow embedding of the roboplc-rpc message-protocol engine (Rust) in Lean 4.

The embedding follows the source files `src/lib.rs`, `src/request.rs`,
`src/response.rs`, `src/server.rs` and `src/client.rs` of the repository.
Machine integers that the source never performs arithmetic on (the `i16`
wire error codes, the `u32` client call identifiers) are modelled as `Int`
and `Nat`.  The pluggable byte codec (`DataFormat` trait) is modelled as a
record of pure functions; fallible Rust operations returning `Result` are
modelled with `Except`.  The JSON value tree produced by `serde_json` is
modelled by the inductive `JVal`; the serde derive attributes on the
envelope types (`rename`, `alias`, `flatten`, `default`,
`skip_serializing_if`, custom (de)serializers for the version marker) are
translated field by field into explicit encoders and decoders over `JVal`.
The two build modes (canonical JSON-RPC 2.0 tagging versus the compact
single-letter tagging) are a `Bool` parameter `canonical`, mirroring the
`canonical` cargo feature.
-/

namespace RoboRpc

/-! ### Error taxonomy (`src/lib.rs`) -/

/-- Constant `JSONRPC_VERSION` from `src/lib.rs`. -/
def JSONRPC_VERSION : String := "2.0"

/-- Constant `ERR_INVALID_PROTOCOL_VERSION` from `src/lib.rs`. -/
def ERR_INVALID_PROTOCOL_VERSION : String := "Invalid protocol version"

/-- Constant `RPC_ERROR_PARSE_ERROR` from `src/lib.rs`. -/
def RPC_ERROR_PARSE_ERROR : Int := -32700

/-- Constant `RPC_ERROR_INVALID_REQUEST` from `src/lib.rs`. -/
def RPC_ERROR_INVALID_REQUEST : Int := -32600

/-- Constant `RPC_ERROR_METHOD_NOT_FOUND` from `src/lib.rs`. -/
def RPC_ERROR_METHOD_NOT_FOUND : Int := -32601

/-- Constant `RPC_ERROR_INVALID_PARAMS` from `src/lib.rs`. -/
def RPC_ERROR_INVALID_PARAMS : Int := -32602

/-- Constant `RPC_ERROR_INTERNAL_ERROR` from `src/lib.rs`. -/
def RPC_ERROR_INTERNAL_ERROR : Int := -32603

/-- `enum RpcErrorKind` from `src/lib.rs`.  The payload of `Custom` is the
`i16` wire code, modelled as `Int` (the source performs no arithmetic on
it). -/
inductive RpcErrorKind where
  | ParseError
  | InvalidRequest
  | MethodNotFound
  | InvalidParams
  | InternalError
  | Custom (code : Int)
  deriving DecidableEq

/-- `impl From<i16> for RpcErrorKind` from `src/lib.rs`: any code other
than the five reserved constants maps to `Custom(code)`. -/
def RpcErrorKind.ofCode (code : Int) : RpcErrorKind :=
  if code = RPC_ERROR_PARSE_ERROR then .ParseError
  else if code = RPC_ERROR_INVALID_REQUEST then .InvalidRequest
  else if code = RPC_ERROR_METHOD_NOT_FOUND then .MethodNotFound
  else if code = RPC_ERROR_INVALID_PARAMS then .InvalidParams
  else if code = RPC_ERROR_INTERNAL_ERROR then .InternalError
  else .Custom code

/-- `impl From<RpcErrorKind> for i16` from `src/lib.rs`. -/
def RpcErrorKind.toCode : RpcErrorKind → Int
  | .ParseError => RPC_ERROR_PARSE_ERROR
  | .InvalidRequest => RPC_ERROR_INVALID_REQUEST
  | .MethodNotFound => RPC_ERROR_METHOD_NOT_FOUND
  | .InvalidParams => RPC_ERROR_INVALID_PARAMS
  | .InternalError => RPC_ERROR_INTERNAL_ERROR
  | .Custom code => code

/-- The five reserved wire codes, as listed in `src/lib.rs`. -/
def reservedCodes : List Int :=
  [RPC_ERROR_PARSE_ERROR, RPC_ERROR_INVALID_REQUEST, RPC_ERROR_METHOD_NOT_FOUND,
   RPC_ERROR_INVALID_PARAMS, RPC_ERROR_INTERNAL_ERROR]

/-- A kind is representable on the wire when a `Custom` payload is an
`i16` value that does not collide with a reserved code (the named kinds
are always representable, their codes being the reserved constants). -/
def RpcErrorKind.wireFaithful : RpcErrorKind → Prop
  | .Custom code => code ∉ reservedCodes ∧ -32768 ≤ code ∧ code ≤ 32767
  | _ => True

instance (k : RpcErrorKind) : Decidable k.wireFaithful :=
  match k with
  | .ParseError => isTrue trivial
  | .InvalidRequest => isTrue trivial
  | .MethodNotFound => isTrue trivial
  | .InvalidParams => isTrue trivial
  | .InternalError => isTrue trivial
  | .Custom code =>
    inferInstanceAs (Decidable (code ∉ reservedCodes ∧ -32768 ≤ code ∧ code ≤ 32767))

/-- `struct RpcError` from `src/lib.rs`: a kind plus an optional
human-readable message. -/
structure RpcError where
  kind : RpcErrorKind
  message : Option String
  deriving DecidableEq

/-- `RpcError::new0` from `src/lib.rs`. -/
def RpcError.new0 (kind : RpcErrorKind) : RpcError := ⟨kind, none⟩

/-- `RpcError.new` from `src/lib.rs`. -/
def RpcError.new (kind : RpcErrorKind) (message : String) : RpcError :=
  ⟨kind, some message⟩

/-- `type RpcResult<R> = Result<R, RpcError>` from `src/lib.rs`. -/
abbrev RpcResult (R : Type) := Except RpcError R

/-! ### JSON value tree

`serde_json::Value`, the dynamic value tree the JSON codec serializes into
and out of.  In a `std` build the call identifier type `Id` is exactly this
type (`src/lib.rs`).  Objects keep their fields as an ordered association
list; the envelope decoders below look fields up by key and never depend on
the order, matching map-based deserialization. -/
inductive JVal where
  | null
  | bool (b : Bool)
  | num (n : Int)
  | str (s : String)
  | arr (elems : List JVal)
  | obj (fields : List (String × JVal))

/-! ### Message model (`src/request.rs`, `src/response.rs`) -/

variable {Id M R P E SRC σ : Type}

/-- Constant `VERSION_HEADER` from `src/lib.rs`: `Some(())` when the
`canonical` feature is on, `None` otherwise. -/
def VERSION_HEADER (canonical : Bool) : Option Unit :=
  if canonical then some () else none

/-- `struct Request<M>` from `src/request.rs`.  `Id` is a type parameter;
in a `std` build the source fixes it to `serde_json::Value` (`JVal` here)
and the client instantiates identifiers from its `u32` counter. -/
structure Request (Id M : Type) where
  jsonrpc : Option Unit
  id : Option Id
  method : M
  deriving DecidableEq

/-- `Request::new0` from `src/request.rs`: no identifier, no response
expected. -/
def Request.new0 (canonical : Bool) (method : M) : Request Id M :=
  ⟨VERSION_HEADER canonical, none, method⟩

/-- `Request::new` from `src/request.rs`. -/
def Request.new (canonical : Bool) (id : Id) (method : M) : Request Id M :=
  ⟨VERSION_HEADER canonical, some id, method⟩

/-- `enum HandlerResponse<R>` from `src/response.rs`: the success/error
union carried inside a response. -/
inductive HandlerResponse (R : Type) where
  | Ok (r : R)
  | Err (e : RpcError)
  deriving DecidableEq

/-- `impl From<HandlerResponse<R>> for RpcResult<R>` from
`src/response.rs`. -/
def HandlerResponse.toRpcResult : HandlerResponse R → RpcResult R
  | .Ok r => .ok r
  | .Err e => .error ⟨e.kind, e.message⟩

/-- `impl From<RpcResult<R>> for HandlerResponse<R>` from
`src/response.rs`. -/
def HandlerResponse.ofRpcResult : RpcResult R → HandlerResponse R
  | .ok r => .Ok r
  | .error e => .Err e

/-- `struct Response<R>` from `src/response.rs`. -/
structure Response (Id R : Type) where
  jsonrpc : Option Unit
  id : Id
  handler_response : HandlerResponse R
  deriving DecidableEq

/-- `Response::from_handler_response` from `src/response.rs`. -/
def Response.from_handler_response (canonical : Bool) (id : Id)
    (handler_response : HandlerResponse R) : Response Id R :=
  ⟨VERSION_HEADER canonical, id, handler_response⟩

/-- `Response::from_server_error` from `src/response.rs`: wraps an error
message into `InternalError`. -/
def Response.from_server_error (canonical : Bool) (id : Id) (error : String) :
    Response Id R :=
  ⟨VERSION_HEADER canonical, id, .Err ⟨.InternalError, some error⟩⟩

/-- `struct InvalidRequest` from `src/request.rs`: the minimal recovery
parse of an undecodable payload, keeping only the raw version-marker string
and the optional identifier. -/
structure InvalidRequest (Id : Type) where
  jsonrpc : Option String
  id : Option Id
  deriving DecidableEq

/-- `InvalidRequest::into_response` from `src/request.rs`, canonical
branch (the claims about the recovery path all state canonical mode; the
non-canonical branch of the `cfg` split is `(MethodNotFound, Some(error))`
unconditionally).  When the recovered marker equals the protocol version
the error is `MethodNotFound` carrying the original decode error text; when
it differs the error is `InvalidRequest` with the fixed mismatch message
(the `&str → String` conversion of that 24-byte constant cannot fail, hence
`some`); when the marker is absent the error is `InvalidRequest` with no
message.  Without a recovered identifier no response is produced. -/
def InvalidRequest.into_response (canonical : Bool) (self : InvalidRequest Id)
    (error : String) : Option (Response Id R) :=
  match self.id with
  | some id =>
    let cm : RpcErrorKind × Option String :=
      if canonical then
        match self.jsonrpc with
        | some jsonrpc =>
          if jsonrpc = JSONRPC_VERSION then (.MethodNotFound, some error)
          else (.InvalidRequest, some ERR_INVALID_PROTOCOL_VERSION)
        | none => (.InvalidRequest, none)
      else (.MethodNotFound, some error)
    some (Response.from_handler_response canonical id (.Err ⟨cm.1, cm.2⟩))
  | none => none

/-! ### Byte codec abstraction (`src/dataformat/mod.rs`)

The `DataFormat` trait: `pack` and `unpack` over an opaque payload type
`P` (the source's `Vec<u8>` / `&[u8]`).  The dispatcher needs `unpack` at
the two types `Request<M>` and `InvalidRequest` and `pack` at
`Response<R>`; a codec is modelled as that record of pure functions, with
errors carried as their display strings (the only thing the protocol layer
ever reads from them, via `to_string`). -/
structure Codec (P Id M R : Type) where
  unpackRequest : P → Except String (Request Id M)
  unpackInvalid : P → Except String (InvalidRequest Id)
  packResponse : Response Id R → Except String P

/-! ### Server dispatcher (`src/server.rs`)

The handler capability (`RpcServerHandler::handle_call`) is a function
argument; `SRC` is the source descriptor type, passed through untouched. -/

/-- `RpcServer::handle_request` from `src/server.rs`: invoke the handler
on the request's method, wrap the outcome into a `HandlerResponse`, then
produce a response exactly when the request carried an identifier. -/
def handle_request (canonical : Bool) (handler : M → SRC → RpcResult R)
    (request : Request Id M) (source : SRC) : Option (Response Id R) :=
  let result : HandlerResponse R :=
    match handler request.method source with
    | .ok v => .Ok v
    | .error e => .Err ⟨e.kind, e.message⟩
  request.id.map fun id => Response.from_handler_response canonical id result

/-- The `serialize_response!` macro body from
`RpcServer::handle_request_payload` in `src/server.rs`: pack the response;
if packing fails, substitute an `InternalError` response carrying the pack
error's display text and pack that; if the second pack also fails, produce
nothing. -/
def serialize_response (canonical : Bool) (c : Codec P Id M R)
    (response : Response Id R) : Option P :=
  match c.packResponse response with
  | .ok v => some v
  | .error error =>
    match c.packResponse (Response.from_server_error canonical response.id error) with
    | .ok v => some v
    | .error _ => none

/-- `RpcServer::handle_request_payload` from `src/server.rs`: decode the
payload as a full request and dispatch it; on decode failure attempt the
minimal `InvalidRequest` recovery parse and answer with its error
response; when even that fails, emit nothing. -/
def handle_request_payload (canonical : Bool) (c : Codec P Id M R)
    (handler : M → SRC → RpcResult R) (payload : P) (source : SRC) : Option P :=
  match c.unpackRequest payload with
  | .ok req =>
    (handle_request canonical handler req source).bind
      (serialize_response canonical c)
  | .error error =>
    match c.unpackInvalid payload with
    | .ok invalid =>
      (invalid.into_response canonical error).bind (serialize_response canonical c)
    | .error _ => none

/-- `RpcServer::handle_request` with the handler's side effects made
explicit: the handler is a state transformer `σ → RpcResult R × σ` and the
dispatcher threads the state exactly as the source evaluates — the
handler call (line 44 of `src/server.rs`) runs first, producing `result`,
and only then is `request.id` consulted to decide whether a response is
built.  The pure `handle_request` above is this function with `σ = Unit`. -/
def handle_request_st (canonical : Bool)
    (handler : M → SRC → σ → RpcResult R × σ) (request : Request Id M)
    (source : SRC) (s : σ) : Option (Response Id R) × σ :=
  let rs := handler request.method source s
  let result : HandlerResponse R :=
    match rs.1 with
    | .ok v => .Ok v
    | .error e => .Err ⟨e.kind, e.message⟩
  (request.id.map fun id => Response.from_handler_response canonical id result, rs.2)

/-! ### Client correlator (`src/client.rs`) -/

/-- `struct RpcClientRequest` from `src/client.rs`: the in-flight call
object, holding the optional `u32` identifier and the encoded payload. -/
structure RpcClientRequest (P : Type) where
  id : Option Nat
  payload : P

/-- `serde_json::Value == u32` as used by `res_id != id` in
`RpcClientRequest::handle_response` (`src/client.rs`): a JSON value equals
a machine integer exactly when it is a number with that value. -/
def jvalEqNat : JVal → Nat → Bool
  | .num n, i => n == (i : Int)
  | _, _ => false

/-- `RpcClient::request` from `src/client.rs`: allocate the next counter
value `id`, build `Request::new(id, method)`, pack it, and return the
in-flight call object carrying `Some id`.  The atomic counter is passed
explicitly; `idToVal` is the `id.into()` conversion from `u32` into the
identifier type. -/
def RpcClient.request (canonical : Bool) (idToVal : Nat → Id)
    (pack : Request Id M → Except E P) (request_id : Nat) (method : M) :
    Except E (RpcClientRequest P) × Nat :=
  let id := request_id
  let req : Request Id M := Request.new canonical (idToVal id) method
  ((pack req).map fun payload => ⟨some id, payload⟩, request_id + 1)

/-- `RpcClient::request0` from `src/client.rs`: build
`Request::new0(method)` (no identifier), pack it, and return the in-flight
call object carrying `None`.  The counter is not touched. -/
def RpcClient.request0 (canonical : Bool)
    (pack : Request Id M → Except E P) (method : M) :
    Except E (RpcClientRequest P) :=
  (pack (Request.new0 canonical method)).map fun payload => ⟨none, payload⟩

/-- `RpcClientRequest::handle_response` from `src/client.rs`: without an
identifier, fail immediately with `InvalidRequest` (the payload is never
decoded); otherwise decode the payload as a `Response`, fail with
`ParseError` on decode failure, fail with `InvalidRequest` when the
decoded identifier does not equal the call's own, and otherwise unwrap
the outcome. -/
def RpcClientRequest.handle_response
    (unpack : P → Except String (Response JVal R))
    (self : RpcClientRequest P) (response_payload : P) : RpcResult R :=
  match self.id with
  | none => .error ⟨.InvalidRequest, some "request ID is missing"⟩
  | some id =>
    match unpack response_payload with
    | .ok r =>
      if ¬ jvalEqNat r.id id then
        .error ⟨.InvalidRequest, some "response ID does not match request ID"⟩
      else
        r.handler_response.toRpcResult
    | .error e => .error ⟨.ParseError, some e⟩

/-! ### The JSON wire encoding of the envelopes

`dataformat::Json` delegates to `serde_json`, so the bytes are the JSON
text of a value tree; what the repository itself defines is the serde
attribute set on `Request`, `Response`, `HandlerResponse` and `RpcError`.
Those attributes are translated here into explicit encoders and decoders
between the envelope types and `JVal`.  The application's method and
result types stay abstract: a method serializes to the list of object
fields its `flatten` contributes, a result to an arbitrary `JVal`. -/

/-- The name the identifier field serializes under: `id` in canonical
mode, `i` under `rename = "i"` in compact mode (`src/request.rs`,
`src/response.rs`). -/
def idFieldName (canonical : Bool) : String := if canonical then "id" else "i"

/-- Whether a key selects the identifier field on deserialization:
canonical mode also accepts the `alias = "i"`. -/
def isIdKey (canonical : Bool) (k : String) : Bool :=
  if canonical then k == "id" || k == "i" else k == "i"

/-- The tag of `HandlerResponse::Ok` on serialization: `result` in
canonical mode, `r` in compact mode (`src/response.rs`). -/
def okTag (canonical : Bool) : String := if canonical then "result" else "r"

/-- The tag of `HandlerResponse::Err` on serialization: `error` in
canonical mode, `e` in compact mode (`src/response.rs`). -/
def errTag (canonical : Bool) : String := if canonical then "error" else "e"

/-- Whether a key selects the `Ok` variant on deserialization (canonical
mode also accepts the `alias = "r"`). -/
def isOkTag (canonical : Bool) (k : String) : Bool :=
  if canonical then k == "result" || k == "r" else k == "r"

/-- Whether a key selects the `Err` variant on deserialization (canonical
mode also accepts the `alias = "e"`). -/
def isErrTag (canonical : Bool) (k : String) : Bool :=
  if canonical then k == "error" || k == "e" else k == "e"

/-- The serialized form of the `jsonrpc` field: skipped when `None`
(`skip_serializing_if = "Option::is_none"`), otherwise written as the
fixed version string by `serialize_version` (`src/lib.rs`). -/
def encodeVersionField : Option Unit → List (String × JVal)
  | some _ => [("jsonrpc", .str JSONRPC_VERSION)]
  | none => []

/-- Serialization of `Request<M>` (`src/request.rs`): the optional
version marker, then the optional identifier (skipped when `None`,
serialized as the identifier value itself since `Id = serde_json::Value`),
then the method's fields contributed by `serde(flatten)`. -/
def encodeRequest (canonical : Bool) (encM : M → List (String × JVal))
    (r : Request JVal M) : JVal :=
  .obj (encodeVersionField r.jsonrpc ++
    (match r.id with
     | some i => [(idFieldName canonical, i)]
     | none => []) ++
    encM r.method)

/-- Serialization of `RpcError` (`src/lib.rs`): the kind as its bare
`i16` wire code under `rename = "code"`, and the message skipped when
`None`. -/
def encodeRpcError (e : RpcError) : JVal :=
  .obj ([("code", .num e.kind.toCode)] ++
    (match e.message with
     | some s => [("message", .str s)]
     | none => []))

/-- Serialization of the externally tagged `HandlerResponse<R>`
(`src/response.rs`), as the fields it contributes through
`serde(flatten)`. -/
def encodeHandlerResponse (canonical : Bool) (encR : R → JVal) :
    HandlerResponse R → List (String × JVal)
  | .Ok r => [(okTag canonical, encR r)]
  | .Err e => [(errTag canonical, encodeRpcError e)]

/-- Serialization of `Response<R>` (`src/response.rs`): optional version
marker, mandatory identifier, flattened outcome. -/
def encodeResponse (canonical : Bool) (encR : R → JVal)
    (resp : Response JVal R) : JVal :=
  .obj (encodeVersionField resp.jsonrpc ++
    [(idFieldName canonical, resp.id)] ++
    encodeHandlerResponse canonical encR resp.handler_response)

/-- `de_validate_version` from `src/lib.rs` applied to a present
`jsonrpc` field value: deserialized as `Option<&str>` (`null` is `None`,
a string is `Some`, anything else is a type error); in canonical mode a
present string that is not the fixed version string fails with the fixed
mismatch message; the surviving option is mapped to `Option<()>`. -/
def de_validate_version (canonical : Bool) : JVal → Except String (Option Unit)
  | .null => .ok none
  | .str s =>
    if canonical ∧ s ≠ JSONRPC_VERSION then .error ERR_INVALID_PROTOCOL_VERSION
    else .ok (some ())
  | _ => .error "invalid type: expected a version string"

/-- The accumulator of map-based envelope deserialization: the raw values
seen for the `jsonrpc` field and for the identifier field, and the
leftover fields handed to the `serde(flatten)` member in order. -/
structure EnvFields where
  jsonrpcVal : Option JVal
  idVal : Option JVal
  rest : List (String × JVal)

/-- One pass over an object's fields, as serde's derived visitor performs
it: a key naming a known field (or one of its aliases) fills that field,
erring on a duplicate; every other key is passed through to the flattened
member (with `serde(flatten)` present, `deny_unknown_fields` has no
effect, per serde's documented limitation). -/
def collectEnvFields (canonical : Bool) :
    List (String × JVal) → EnvFields → Except String EnvFields
  | [], acc => .ok acc
  | (k, v) :: fs, acc =>
    if k = "jsonrpc" then
      match acc.jsonrpcVal with
      | some _ => .error "duplicate field jsonrpc"
      | none => collectEnvFields canonical fs { acc with jsonrpcVal := some v }
    else if isIdKey canonical k then
      match acc.idVal with
      | some _ => .error "duplicate field id"
      | none => collectEnvFields canonical fs { acc with idVal := some v }
    else
      collectEnvFields canonical fs { acc with rest := acc.rest ++ [(k, v)] }

/-- Deserialization of `Option<Id>` with `Id = serde_json::Value` from a
present field value: serde's `Option` visitor maps JSON `null` to `None`
and everything else to `Some` of the value itself. -/
def decodeOptId : JVal → Option JVal
  | .null => none
  | v => some v

/-- Deserialization of `Request<M>` (`src/request.rs`): an object whose
`jsonrpc` field, when present, passes `de_validate_version` (absent means
`None` via `serde(default)`), whose identifier field is optional, and
whose remaining fields are decoded as the flattened method. -/
def decodeRequest (canonical : Bool)
    (decM : List (String × JVal) → Except String M) :
    JVal → Except String (Request JVal M)
  | .obj fields => do
    let acc ← collectEnvFields canonical fields ⟨none, none, []⟩
    let jsonrpc ← match acc.jsonrpcVal with
      | none => Except.ok none
      | some v => de_validate_version canonical v
    let method ← decM acc.rest
    .ok ⟨jsonrpc, acc.idVal.bind decodeOptId, method⟩
  | _ => .error "invalid type: expected a map"

/-- The accumulator of `RpcError` deserialization. -/
structure ErrFields where
  codeVal : Option JVal
  messageVal : Option JVal

/-- Field pass for `RpcError` (`src/lib.rs`): `code` and `message` are
known, duplicates err, unknown fields are ignored (no
`deny_unknown_fields` on this struct). -/
def collectErrFields : List (String × JVal) → ErrFields → Except String ErrFields
  | [], acc => .ok acc
  | (k, v) :: fs, acc =>
    if k = "code" then
      match acc.codeVal with
      | some _ => .error "duplicate field code"
      | none => collectErrFields fs { acc with codeVal := some v }
    else if k = "message" then
      match acc.messageVal with
      | some _ => .error "duplicate field message"
      | none => collectErrFields fs { acc with messageVal := some v }
    else
      collectErrFields fs acc

/-- Deserialization of an `i16` from a JSON value: a number within the
`i16` range, anything else a type or range error. -/
def decodeI16 : JVal → Except String Int
  | .num n =>
    if -32768 ≤ n ∧ n ≤ 32767 then .ok n
    else .error "number out of range of i16"
  | _ => .error "invalid type: expected i16"

/-- Deserialization of `Option<String>` from an optional field value:
absent or `null` is `None`, a string is `Some`. -/
def decodeOptString : Option JVal → Except String (Option String)
  | none => .ok none
  | some .null => .ok none
  | some (.str s) => .ok (some s)
  | some _ => .error "invalid type: expected a string"

/-- Deserialization of `RpcError` (`src/lib.rs`): a required `code`
decoded as a bare `i16` and lifted through `RpcErrorKind::from`, plus an
optional `message`. -/
def decodeRpcError : JVal → Except String RpcError
  | .obj fields => do
    let acc ← collectErrFields fields ⟨none, none⟩
    let codeV ← match acc.codeVal with
      | none => Except.error "missing field code"
      | some v => Except.ok v
    let code ← decodeI16 codeV
    let message ← decodeOptString acc.messageVal
    .ok ⟨RpcErrorKind.ofCode code, message⟩
  | _ => .error "invalid type: expected a map"

/-- Deserialization of the flattened, externally tagged
`HandlerResponse<R>` (`src/response.rs`) from the leftover fields: exactly
one field whose key is a variant tag (or, in canonical mode, its alias). -/
def decodeHandlerResponse (canonical : Bool) (decR : JVal → Except String R) :
    List (String × JVal) → Except String (HandlerResponse R)
  | [(k, v)] =>
    if isOkTag canonical k then (decR v).map .Ok
    else if isErrTag canonical k then (decodeRpcError v).map .Err
    else .error "unknown variant"
  | _ => .error "expected a map with a single variant key"

/-- Deserialization of `Response<R>` (`src/response.rs`): like the
request but with a mandatory identifier (deserialized as the raw value,
there being no `Option` wrapper) and the leftover fields decoded as the
flattened outcome. -/
def decodeResponse (canonical : Bool) (decR : JVal → Except String R) :
    JVal → Except String (Response JVal R)
  | .obj fields => do
    let acc ← collectEnvFields canonical fields ⟨none, none, []⟩
    let jsonrpc ← match acc.jsonrpcVal with
      | none => Except.ok none
      | some v => de_validate_version canonical v
    let id ← match acc.idVal with
      | none => Except.error "missing field id"
      | some v => Except.ok v
    let hr ← decodeHandlerResponse canonical decR acc.rest
    .ok ⟨jsonrpc, id, hr⟩
  | _ => .error "invalid type: expected a map"

/-! ### Claim C3: the error-code mapping is total and lossless -/

/-- Kind-to-code-to-kind is the identity on wire-representable kinds. -/
theorem ofCode_toCode (k : RpcErrorKind) (hk : k.wireFaithful) :
    RpcErrorKind.ofCode k.toCode = k := by
  cases k with
  | Custom code =>
    obtain ⟨hmem, -, -⟩ := hk
    simp only [reservedCodes, List.mem_cons, List.not_mem_nil, or_false,
      not_or] at hmem
    obtain ⟨h1, h2, h3, h4, h5⟩ := hmem
    simp [RpcErrorKind.toCode, RpcErrorKind.ofCode, h1, h2, h3, h4, h5]
  | _ => decide

/-- Code-to-kind-to-code is the identity on every code. -/
theorem toCode_ofCode (c : Int) : (RpcErrorKind.ofCode c).toCode = c := by
  unfold RpcErrorKind.ofCode
  split_ifs with h1 h2 h3 h4 h5 <;> simp [RpcErrorKind.toCode, *]

/-- Claim C3: for every kind among the five reserved kinds and every
`Custom(code)` whose code is an `i16` value that is not one of the five
reserved codes, converting to the `i16` wire code and back is the
identity; and for every `i16` code, converting to a kind and back to the
code is the identity. -/
theorem c3_error_code_roundtrip (k : RpcErrorKind) (hk : k.wireFaithful)
    (c : Int) (_hlo : -32768 ≤ c) (_hhi : c ≤ 32767) :
    RpcErrorKind.ofCode k.toCode = k ∧ (RpcErrorKind.ofCode c).toCode = c :=
  ⟨ofCode_toCode k hk, toCode_ofCode c⟩

/-- Claim C3 witness: `Custom(-32000)` survives the round trip through
`i16`, and the code `-32000` survives the round trip through the kind. -/
theorem c3_error_code_roundtrip_witness :
    RpcErrorKind.ofCode (RpcErrorKind.Custom (-32000)).toCode = .Custom (-32000) ∧
    (RpcErrorKind.ofCode (-32000)).toCode = -32000 :=
  c3_error_code_roundtrip (.Custom (-32000)) (by decide) (-32000) (by decide) (by decide)

/-! ### Claim C1: dispatch of a request that carries an identifier -/

/-- Claim C1: for every request that carries an identifier and every
handler, `handle_request` produces `some` response whose identifier is
the request's identifier and whose outcome is `Ok v` when the handler
returns `Ok v` and `Err` with the same kind and message when the handler
returns `Err` (so a handler error `Custom(-32000)` with message `X` is
carried through unchanged). -/
theorem c1_dispatch_with_id (canonical : Bool) (handler : M → SRC → RpcResult R)
    (request : Request Id M) (source : SRC) (i : Id)
    (hid : request.id = some i) :
    handle_request canonical handler request source =
      some (Response.from_handler_response canonical i
        (match handler request.method source with
         | .ok v => .Ok v
         | .error e => .Err ⟨e.kind, e.message⟩)) ∧
    (Response.from_handler_response canonical i
      (match handler request.method source with
       | .ok v => (.Ok v : HandlerResponse R)
       | .error e => .Err ⟨e.kind, e.message⟩)).id = i := by
  refine ⟨?_, rfl⟩
  simp only [handle_request, hid]
  rfl

/-- The handler of the C1 witness: always fails with
`Custom(-32000), "X"`. -/
def c1Handler : Unit → Unit → RpcResult Unit :=
  fun _ _ => .error ⟨.Custom (-32000), some "X"⟩

/-- The request of the C1 witness: identifier `7`. -/
def c1Req : Request Nat Unit := ⟨some (), some 7, ()⟩

/-- Claim C1 witness: dispatching the request with identifier `7` through
the always-`Custom(-32000)` handler yields a response with identifier `7`
carrying that error unchanged. -/
theorem c1_dispatch_with_id_witness :
    c1Req.id = some 7 ∧
    (handle_request true c1Handler c1Req () =
      some (Response.from_handler_response true 7
        (match c1Handler c1Req.method () with
         | .ok v => .Ok v
         | .error e => .Err ⟨e.kind, e.message⟩)) ∧
    (Response.from_handler_response true 7
      (match c1Handler c1Req.method () with
       | .ok v => (.Ok v : HandlerResponse Unit)
       | .error e => .Err ⟨e.kind, e.message⟩)).id = 7) :=
  ⟨rfl, c1_dispatch_with_id true c1Handler c1Req () 7 rfl⟩

/-! ### Claim C4: fire-and-forget requests produce no output -/

/-- Claim C4: for every request whose identifier is `none` and every
handler, `handle_request` produces no response, and
`handle_request_payload` on a payload that decodes to such a request
produces no output payload, whatever the handler returns. -/
theorem c4_fire_and_forget_no_output (canonical : Bool) (c : Codec P Id M R)
    (handler : M → SRC → RpcResult R) (request : Request Id M)
    (payload : P) (source : SRC)
    (hid : request.id = none)
    (hu : c.unpackRequest payload = .ok request) :
    handle_request canonical handler request source = none ∧
    handle_request_payload canonical c handler payload source = none := by
  have h1 : handle_request canonical handler request source = none := by
    simp only [handle_request, hid]
    rfl
  refine ⟨h1, ?_⟩
  simp only [handle_request_payload, hu, h1]
  rfl

/-- The request of the C4 witness: no identifier. -/
def c4Req : Request Nat Unit := ⟨some (), none, ()⟩

/-- The handler of the C4 witness: always succeeds. -/
def c4Handler : Unit → Unit → RpcResult Unit := fun _ _ => .ok ()

/-- The codec of the C4 witness: every payload decodes to the identifier-
free request. -/
def c4Codec : Codec Unit Nat Unit Unit :=
  ⟨fun _ => .ok c4Req, fun _ => .error "not reached", fun _ => .ok ()⟩

/-- Claim C4 witness: the identifier-free request yields no response and
no output payload even though the handler succeeds. -/
theorem c4_fire_and_forget_no_output_witness :
    c4Req.id = none ∧
    c4Codec.unpackRequest () = .ok c4Req ∧
    (handle_request true c4Handler c4Req () = none ∧
     handle_request_payload true c4Codec c4Handler () () = none) :=
  ⟨rfl, rfl,
   c4_fire_and_forget_no_output true c4Codec c4Handler c4Req () () rfl rfl⟩

/-! ### Claim C10: the handler runs exactly once, before the id check -/

/-- Claim C10: with the handler's side effects made explicit as a state
transformer, dispatching any successfully decoded request transforms the
state by exactly one handler application — also when the identifier is
`none` — and the produced output is that of the pure dispatcher on the
once-applied handler.  Suppressing the response for an identifier-free
request does not suppress the handler call: the final state is
`(handler request.method source s).2`, never the untouched `s`. -/
theorem c10_handler_runs_once (canonical : Bool)
    (handler : M → SRC → σ → RpcResult R × σ) (request : Request Id M)
    (source : SRC) (s : σ) :
    (handle_request_st canonical handler request source s).2 =
      (handler request.method source s).2 ∧
    (handle_request_st canonical handler request source s).1 =
      handle_request canonical (fun m src => (handler m src s).1) request source :=
  ⟨rfl, rfl⟩

/-! ### Claim C9: a fire-and-forget client call rejects every response -/

/-- Claim C9: every in-flight call produced by the fire-and-forget
constructor `request0` carries no identifier, and its `handle_response`
fails with `InvalidRequest` on every payload and under every decoder —
the decoder and the payload are quantified and the result never depends
on them, so the payload is never decoded. -/
theorem c9_fire_and_forget_client (canonical : Bool)
    (pack : Request JVal M → Except String P) (method : M)
    (creq : RpcClientRequest P)
    (hreq : RpcClient.request0 canonical pack method = .ok creq)
    (unpack : P → Except String (Response JVal R)) (payload : P) :
    creq.id = none ∧
    creq.handle_response unpack payload =
      .error ⟨.InvalidRequest, some "request ID is missing"⟩ := by
  have hid : creq.id = none := by
    unfold RpcClient.request0 at hreq
    cases h : pack (Request.new0 canonical method) with
    | ok p =>
      rw [h] at hreq
      simp only [Except.map] at hreq
      cases hreq
      rfl
    | error e =>
      rw [h] at hreq
      simp only [Except.map] at hreq
      exact Except.noConfusion hreq
  refine ⟨hid, ?_⟩
  simp only [RpcClientRequest.handle_response, hid]

/-- The packer of the C9 witness: always succeeds. -/
def c9Pack : Request JVal Unit → Except String Unit := fun _ => .ok ()

/-- The decoder of the C9 witness: always decodes a well-formed
response. -/
def c9Unpack : Unit → Except String (Response JVal Unit) :=
  fun _ => .ok ⟨some (), .num 0, .Ok ()⟩

/-- Claim C9 witness: the call built by `request0` has no identifier and
rejects the decodable response payload with `InvalidRequest`. -/
theorem c9_fire_and_forget_client_witness :
    RpcClient.request0 true c9Pack () = .ok ⟨none, ()⟩ ∧
    ((⟨none, ()⟩ : RpcClientRequest Unit).id = none ∧
     RpcClientRequest.handle_response c9Unpack ⟨none, ()⟩ () =
       .error ⟨.InvalidRequest, some "request ID is missing"⟩) :=
  ⟨rfl, c9_fire_and_forget_client true c9Pack () ⟨none, ()⟩ rfl c9Unpack ()⟩

/-! ### Claim C8: a response with a mismatched identifier is rejected

The claim quotes the rejection message as `response id does not match
request id`; the source (`src/client.rs`) writes
`response ID does not match request ID`.  The kind and the behaviour are
as claimed; only the capitalization of the quoted message differs, so the
claim is corrected to the source's spelling. -/

/-- The decoded response of the C8 instance: identifier `2`. -/
def c8Resp : Response JVal Unit := ⟨some (), .num 2, .Ok ()⟩

/-- The decoder of the C8 instance: always yields `c8Resp`. -/
def c8Unpack : Unit → Except String (Response JVal Unit) := fun _ => .ok c8Resp

/-- The in-flight call of the C8 instance: identifier `1`. -/
def c8Call : RpcClientRequest Unit := ⟨some 1, ()⟩

/-- Claim C8 counterexample: against a decodable response whose
identifier `2` differs from the call's identifier `1`, `handle_response`
returns `InvalidRequest` with the message spelled
`response ID does not match request ID`, which is not the message
`response id does not match request id` stated by the claim. -/
theorem c8_counterexample :
    c8Call.handle_response c8Unpack () =
      .error ⟨.InvalidRequest, some "response ID does not match request ID"⟩ ∧
    c8Call.handle_response c8Unpack () ≠
      .error ⟨.InvalidRequest, some "response id does not match request id"⟩ := by
  have h1 : c8Call.handle_response c8Unpack () =
      .error ⟨.InvalidRequest, some "response ID does not match request ID"⟩ := rfl
  refine ⟨h1, ?_⟩
  intro h
  have h2 : RpcError.mk .InvalidRequest (some "response ID does not match request ID") =
      RpcError.mk .InvalidRequest (some "response id does not match request id") :=
    Except.error.inj (h1.symm.trans h)
  exact absurd h2 (by decide)

/-- Claim C8 as corrected: for every client call issued with an
identifier and every response payload that decodes successfully to a
response whose identifier differs from the call's, `handle_response`
returns `InvalidRequest` with the message
`response ID does not match request ID`, and not the decoded outcome. -/
theorem c8_id_mismatch_rejected (unpack : P → Except String (Response JVal R))
    (self : RpcClientRequest P) (payload : P) (i : Nat)
    (resp : Response JVal R)
    (hid : self.id = some i)
    (hu : unpack payload = .ok resp)
    (hne : jvalEqNat resp.id i = false) :
    self.handle_response unpack payload =
      .error ⟨.InvalidRequest, some "response ID does not match request ID"⟩ := by
  simp only [RpcClientRequest.handle_response, hid, hu, hne]
  simp

/-- Claim C8 witness: the call with identifier `1` rejects the decoded
response with identifier `2` with the mismatch error. -/
theorem c8_id_mismatch_rejected_witness :
    c8Call.id = some 1 ∧ c8Unpack () = .ok c8Resp ∧
    jvalEqNat c8Resp.id 1 = false ∧
    c8Call.handle_response c8Unpack () =
      .error ⟨.InvalidRequest, some "response ID does not match request ID"⟩ :=
  ⟨rfl, rfl, rfl, c8_id_mismatch_rejected c8Unpack c8Call () 1 c8Resp rfl rfl rfl⟩

/-! ### Claims C5, C6, C7: the recovery parse of an undecodable payload

All three claims state canonical mode, so `canonical = true` throughout.
Each theorem pins the dispatcher's whole output: the encoding of exactly
the error response named by the claim. -/

/-- Claim C5: when the payload fails to decode as a full request but the
minimal recovery parse yields an identifier and a version marker equal to
the fixed version string, the dispatcher emits (the encoding of) a
response whose error kind is `MethodNotFound`. -/
theorem c5_recovery_method_not_found (c : Codec P Id M R)
    (handler : M → SRC → RpcResult R) (payload : P) (source : SRC)
    (err : String) (i : Id)
    (hu : c.unpackRequest payload = .error err)
    (hi : c.unpackInvalid payload = .ok ⟨some JSONRPC_VERSION, some i⟩) :
    handle_request_payload true c handler payload source =
      serialize_response true c
        (Response.from_handler_response true i
          (.Err ⟨.MethodNotFound, some err⟩)) := by
  simp only [handle_request_payload, hu, hi, InvalidRequest.into_response,
    if_pos rfl, if_true]
  rfl

/-- Claim C6: when the recovery parse yields an identifier and a version
marker different from the fixed version string, the dispatcher emits (the
encoding of) a response whose error kind is `InvalidRequest` and whose
message is the fixed mismatch text — the response is fully determined
without reference to the original decode error text `err`, which appears
only in the hypothesis. -/
theorem c6_recovery_version_mismatch (c : Codec P Id M R)
    (handler : M → SRC → RpcResult R) (payload : P) (source : SRC)
    (err : String) (i : Id) (v : String)
    (hu : c.unpackRequest payload = .error err)
    (hi : c.unpackInvalid payload = .ok ⟨some v, some i⟩)
    (hv : v ≠ JSONRPC_VERSION) :
    handle_request_payload true c handler payload source =
      serialize_response true c
        (Response.from_handler_response true i
          (.Err ⟨.InvalidRequest, some ERR_INVALID_PROTOCOL_VERSION⟩)) := by
  simp only [handle_request_payload, hu, hi, InvalidRequest.into_response,
    if_neg hv, if_true]
  rfl

/-- Claim C7: when the recovery parse yields an identifier but no version
marker at all, the dispatcher emits (the encoding of) a response whose
error kind is `InvalidRequest` and which carries no message. -/
theorem c7_recovery_marker_absent (c : Codec P Id M R)
    (handler : M → SRC → RpcResult R) (payload : P) (source : SRC)
    (err : String) (i : Id)
    (hu : c.unpackRequest payload = .error err)
    (hi : c.unpackInvalid payload = .ok ⟨none, some i⟩) :
    handle_request_payload true c handler payload source =
      serialize_response true c
        (Response.from_handler_response true i
          (.Err ⟨.InvalidRequest, none⟩)) := by
  simp only [handle_request_payload, hu, hi, InvalidRequest.into_response]
  rfl

/-- The codec of the C5 witness: the full decode fails, the recovery
parse yields identifier `1` and the correct marker, packing succeeds. -/
def c5Codec : Codec Unit Nat Unit Unit :=
  ⟨fun _ => .error "boom", fun _ => .ok ⟨some "2.0", some 1⟩, fun _ => .ok ()⟩

/-- Claim C5 witness: on that codec the dispatcher emits the encoding of
the `MethodNotFound` response carrying the decode error text. -/
theorem c5_recovery_method_not_found_witness :
    c5Codec.unpackRequest () = .error "boom" ∧
    c5Codec.unpackInvalid () = .ok ⟨some JSONRPC_VERSION, some 1⟩ ∧
    handle_request_payload true c5Codec
        (fun _ _ => (.ok () : RpcResult Unit)) () () =
      serialize_response true c5Codec
        (Response.from_handler_response true 1
          (.Err ⟨.MethodNotFound, some "boom"⟩)) :=
  ⟨rfl, rfl,
   c5_recovery_method_not_found c5Codec (fun _ _ => .ok ()) () () "boom" 1 rfl rfl⟩

/-- The codec of the C6 witness: the recovery parse yields identifier `1`
and the wrong marker `1.0`. -/
def c6Codec : Codec Unit Nat Unit Unit :=
  ⟨fun _ => .error "boom", fun _ => .ok ⟨some "1.0", some 1⟩, fun _ => .ok ()⟩

/-- Claim C6 witness: on that codec the dispatcher emits the encoding of
the `InvalidRequest` response carrying the fixed mismatch message. -/
theorem c6_recovery_version_mismatch_witness :
    c6Codec.unpackRequest () = .error "boom" ∧
    c6Codec.unpackInvalid () = .ok ⟨some "1.0", some 1⟩ ∧
    "1.0" ≠ JSONRPC_VERSION ∧
    handle_request_payload true c6Codec
        (fun _ _ => (.ok () : RpcResult Unit)) () () =
      serialize_response true c6Codec
        (Response.from_handler_response true 1
          (.Err ⟨.InvalidRequest, some ERR_INVALID_PROTOCOL_VERSION⟩)) :=
  ⟨rfl, rfl, by decide,
   c6_recovery_version_mismatch c6Codec (fun _ _ => .ok ()) () () "boom" 1 "1.0"
     rfl rfl (by decide)⟩

/-- The codec of the C7 witness: the recovery parse yields identifier `1`
and no marker. -/
def c7Codec : Codec Unit Nat Unit Unit :=
  ⟨fun _ => .error "boom", fun _ => .ok ⟨none, some 1⟩, fun _ => .ok ()⟩

/-- Claim C7 witness: on that codec the dispatcher emits the encoding of
the message-less `InvalidRequest` response. -/
theorem c7_recovery_marker_absent_witness :
    c7Codec.unpackRequest () = .error "boom" ∧
    c7Codec.unpackInvalid () = .ok ⟨none, some 1⟩ ∧
    handle_request_payload true c7Codec
        (fun _ _ => (.ok () : RpcResult Unit)) () () =
      serialize_response true c7Codec
        (Response.from_handler_response true 1
          (.Err ⟨.InvalidRequest, none⟩)) :=
  ⟨rfl, rfl,
   c7_recovery_marker_absent c7Codec (fun _ _ => .ok ()) () () "boom" 1 rfl rfl⟩

/-! ### Claim C2: the wire encoding round-trips

Helper lemmas about the field names and the field pass, then the
round-trip of each envelope. -/

/-- The identifier's serialized name is recognized on deserialization. -/
theorem isIdKey_idFieldName (b : Bool) : isIdKey b (idFieldName b) = true := by
  cases b <;> decide

/-- The identifier's serialized name is not the version field's. -/
theorem idFieldName_ne_jsonrpc (b : Bool) : idFieldName b ≠ "jsonrpc" := by
  cases b <;> decide

/-- The `Ok` tag is recognized as the `Ok` variant. -/
theorem isOkTag_okTag (b : Bool) : isOkTag b (okTag b) = true := by
  cases b <;> decide

/-- The `Err` tag is not recognized as the `Ok` variant. -/
theorem isOkTag_errTag (b : Bool) : isOkTag b (errTag b) = false := by
  cases b <;> decide

/-- The `Err` tag is recognized as the `Err` variant. -/
theorem isErrTag_errTag (b : Bool) : isErrTag b (errTag b) = true := by
  cases b <;> decide

/-- The `Ok` tag is not an envelope field name. -/
theorem okTag_plain (b : Bool) : okTag b ≠ "jsonrpc" ∧ isIdKey b (okTag b) = false := by
  cases b <;> decide

/-- The `Err` tag is not an envelope field name. -/
theorem errTag_plain (b : Bool) : errTag b ≠ "jsonrpc" ∧ isIdKey b (errTag b) = false := by
  cases b <;> decide

/-- Fields that name neither the version field nor the identifier pass
through the envelope field pass into the leftovers, in order. -/
theorem collectEnvFields_plain (b : Bool) (l : List (String × JVal))
    (acc : EnvFields)
    (h : ∀ kv ∈ l, kv.1 ≠ "jsonrpc" ∧ isIdKey b kv.1 = false) :
    collectEnvFields b l acc = .ok { acc with rest := acc.rest ++ l } := by
  induction l generalizing acc with
  | nil => simp [collectEnvFields]
  | cons kv fs ih =>
    obtain ⟨k, v⟩ := kv
    obtain ⟨h1, h2⟩ := h (k, v) (List.mem_cons_self _ _)
    simp only [collectEnvFields, if_neg h1, h2, Bool.false_eq_true, if_false]
    rw [ih _ fun kv hkv => h kv (List.mem_cons_of_mem _ hkv)]
    simp [List.append_assoc]

/-- A version field at the head of the pass fills the version slot. -/
theorem collectEnvFields_cons_jsonrpc (b : Bool) (v : JVal)
    (fs : List (String × JVal)) (acc : EnvFields)
    (h : acc.jsonrpcVal = none) :
    collectEnvFields b (("jsonrpc", v) :: fs) acc =
      collectEnvFields b fs { acc with jsonrpcVal := some v } := by
  simp only [collectEnvFields, if_pos rfl, h, if_true]

/-- An identifier field at the head of the pass fills the identifier
slot. -/
theorem collectEnvFields_cons_id (b : Bool) (v : JVal)
    (fs : List (String × JVal)) (acc : EnvFields)
    (h : acc.idVal = none) :
    collectEnvFields b ((idFieldName b, v) :: fs) acc =
      collectEnvFields b fs { acc with idVal := some v } := by
  simp only [collectEnvFields, if_neg (idFieldName_ne_jsonrpc b),
    isIdKey_idFieldName b, if_true, h]

/-- The field pass over a serialized envelope: the optional version
field, the optional identifier field and the flattened fields land in
their three slots. -/
theorem collectEnvFields_encoded (b : Bool) (jr : Option Unit)
    (ido : Option JVal) (ml : List (String × JVal))
    (hml : ∀ kv ∈ ml, kv.1 ≠ "jsonrpc" ∧ isIdKey b kv.1 = false) :
    collectEnvFields b
      (encodeVersionField jr ++
        (match ido with
         | some i => [(idFieldName b, i)]
         | none => []) ++ ml)
      ⟨none, none, []⟩ =
      .ok ⟨jr.map fun _ => .str JSONRPC_VERSION, ido, ml⟩ := by
  cases jr <;> cases ido <;>
    simp only [encodeVersionField, Option.map_none', Option.map_some',
      List.nil_append, List.append_nil, List.cons_append, List.singleton_append] <;>
    first
      | simpa using collectEnvFields_plain b ml ⟨none, none, []⟩ hml
      | (rw [collectEnvFields_cons_jsonrpc b _ _ _ rfl]
         first
           | simpa using collectEnvFields_plain b ml _ hml
           | (rw [collectEnvFields_cons_id b _ _ _ rfl]
              simpa using collectEnvFields_plain b ml _ hml))
      | (rw [collectEnvFields_cons_id b _ _ _ rfl]
         simpa using collectEnvFields_plain b ml _ hml)

/-- Reduction of the `Except` bind on a success value. -/
theorem ok_bind {α β ε : Type} (a : α) (f : α → Except ε β) :
    (Except.ok a : Except ε α) >>= f = f a := rfl

/-- A non-null identifier value survives the `Option` decoding. -/
theorem decodeOptId_of_ne_null (i : JVal) (h : i ≠ .null) :
    decodeOptId i = some i := by
  cases i with
  | null => exact absurd rfl h
  | _ => rfl

/-- The serialized version marker passes validation in both modes. -/
theorem de_validate_version_encoded (b : Bool) :
    de_validate_version b (.str JSONRPC_VERSION) = .ok (some ()) := by
  simp [de_validate_version]

/-- The wire codes of wire-representable kinds lie in the `i16` range. -/
theorem toCode_i16_range (k : RpcErrorKind) (hk : k.wireFaithful) :
    -32768 ≤ k.toCode ∧ k.toCode ≤ 32767 := by
  cases k with
  | Custom code => exact hk.2
  | _ => decide

/-- A wire-representable `RpcError` survives its JSON round trip. -/
theorem decodeRpcError_encodeRpcError (e : RpcError)
    (hk : e.kind.wireFaithful) :
    decodeRpcError (encodeRpcError e) = .ok e := by
  obtain ⟨k, msg⟩ := e
  obtain ⟨hlo, hhi⟩ := toCode_i16_range k hk
  have hdec : decodeI16 (.num k.toCode) = .ok k.toCode := by
    simp [decodeI16, hlo, hhi]
  cases msg with
  | none =>
    simp [encodeRpcError, decodeRpcError, collectErrFields, hdec,
      decodeOptString, ofCode_toCode k hk, ok_bind]
  | some s =>
    simp [encodeRpcError, decodeRpcError, collectErrFields, hdec,
      decodeOptString, ofCode_toCode k hk, ok_bind]

/-- The result/error payloads of an outcome decode back: the `Ok` payload
round-trips through the result codec, and the `Err` payload's kind is
wire-representable (the conditions under which the outcome's own JSON
round trip can succeed). -/
def HandlerResponse.decodesBack (encR : R → JVal)
    (decR : JVal → Except String R) : HandlerResponse R → Prop
  | .Ok v => decR (encR v) = .ok v
  | .Err e => e.kind.wireFaithful

/-- The flattened outcome survives its JSON round trip. -/
theorem decodeHandlerResponse_encoded (b : Bool) (encR : R → JVal)
    (decR : JVal → Except String R) (hr : HandlerResponse R)
    (hvalid : hr.decodesBack encR decR) :
    decodeHandlerResponse b decR (encodeHandlerResponse b encR hr) = .ok hr := by
  cases hr with
  | Ok v =>
    simp only [encodeHandlerResponse, decodeHandlerResponse, isOkTag_okTag,
      if_true]
    rw [hvalid]
    rfl
  | Err e =>
    simp only [encodeHandlerResponse, decodeHandlerResponse, isOkTag_errTag,
      Bool.false_eq_true, if_false, isErrTag_errTag, if_true]
    rw [decodeRpcError_encodeRpcError e hvalid]
    rfl

/-- The fields a serialized outcome contributes through `flatten` avoid
the envelope's own field names. -/
theorem encodeHandlerResponse_plain (b : Bool) (encR : R → JVal)
    (hr : HandlerResponse R) :
    ∀ kv ∈ encodeHandlerResponse b encR hr,
      kv.1 ≠ "jsonrpc" ∧ isIdKey b kv.1 = false := by
  cases hr with
  | Ok v =>
    intro kv hkv
    simp only [encodeHandlerResponse, List.mem_singleton] at hkv
    subst hkv
    exact okTag_plain b
  | Err e =>
    intro kv hkv
    simp only [encodeHandlerResponse, List.mem_singleton] at hkv
    subst hkv
    exact errTag_plain b

/-- A request whose identifier, when present, is not JSON `null`, and
whose method round-trips through the method codec without using the
envelope's field names, survives its JSON round trip in either mode. -/
theorem decodeRequest_encodeRequest (b : Bool)
    (encM : M → List (String × JVal))
    (decM : List (String × JVal) → Except String M)
    (r : Request JVal M)
    (hM : decM (encM r.method) = .ok r.method)
    (hkeys : ∀ kv ∈ encM r.method, kv.1 ≠ "jsonrpc" ∧ isIdKey b kv.1 = false)
    (hid : r.id ≠ some JVal.null) :
    decodeRequest b decM (encodeRequest b encM r) = .ok r := by
  obtain ⟨jr, ido, m⟩ := r
  simp only [encodeRequest, decodeRequest]
  rw [collectEnvFields_encoded b jr ido (encM m) hkeys]
  cases jr with
  | none =>
    cases ido with
    | none => simp [hM, ok_bind]
    | some i =>
      have hi : i ≠ .null := fun h => hid (by rw [h])
      simp [hM, decodeOptId_of_ne_null i hi, ok_bind]
  | some u =>
    cases u
    cases ido with
    | none => simp [hM, de_validate_version_encoded b, ok_bind]
    | some i =>
      have hi : i ≠ .null := fun h => hid (by rw [h])
      simp [hM, de_validate_version_encoded b, decodeOptId_of_ne_null i hi,
        ok_bind]

/-- A response whose outcome's payloads decode back survives its JSON
round trip in either mode — the identifier needs no side condition, not
being wrapped in an `Option`. -/
theorem decodeResponse_encodeResponse (b : Bool) (encR : R → JVal)
    (decR : JVal → Except String R) (resp : Response JVal R)
    (hhr : resp.handler_response.decodesBack encR decR) :
    decodeResponse b decR (encodeResponse b encR resp) = .ok resp := by
  obtain ⟨jr, i, hr⟩ := resp
  simp only [encodeResponse, decodeResponse]
  have hfields :
      encodeVersionField jr ++ [(idFieldName b, i)] ++
        encodeHandlerResponse b encR hr =
      encodeVersionField jr ++
        (match (some i : Option JVal) with
         | some x => [(idFieldName b, x)]
         | none => []) ++ encodeHandlerResponse b encR hr := rfl
  rw [hfields,
    collectEnvFields_encoded b jr (some i) (encodeHandlerResponse b encR hr)
      (encodeHandlerResponse_plain b encR hr)]
  cases jr with
  | none => simp [decodeHandlerResponse_encoded b encR decR hr hhr, ok_bind]
  | some u =>
    cases u
    simp [de_validate_version_encoded b,
      decodeHandlerResponse_encoded b encR decR hr hhr, ok_bind]

/-! ### Claim C2: settled

As stated, the claim fails: the spec admits JSON `null` as an identifier
scalar, but a `Request` whose `id` is `Some(null)` serializes to an
`id: null` field which serde's `Option` deserializer reads back as `None`
— the decoded request is a fire-and-forget request, not the original.
All other valid envelope values round-trip; the claim is corrected by
excluding a present-but-null request identifier. -/

/-- The method codec of the C2 instances: the canonical `serde` tagging
of a one-variant method union, `method`/`params`. -/
def c2EncM : Unit → List (String × JVal) :=
  fun _ => [("method", .str "test"), ("params", .obj [])]

/-- The matching method decoder of the C2 instances. -/
def c2DecM : List (String × JVal) → Except String Unit :=
  fun fields =>
    match fields with
    | [("method", .str s), ("params", .obj [])] =>
      if s = "test" then .ok () else .error "unknown method"
    | _ => .error "bad method"

/-- The result encoder of the C2 instances. -/
def c2EncR : Unit → JVal := fun _ => .bool true

/-- The matching result decoder of the C2 instances. -/
def c2DecR : JVal → Except String Unit :=
  fun v =>
    match v with
    | .bool true => .ok ()
    | _ => .error "bad result"

/-- The request of the C2 counterexample: identifier present and equal to
the JSON `null` scalar, which the spec admits as an identifier. -/
def c2ReqNull : Request JVal Unit := ⟨some (), some .null, ()⟩

/-- Claim C2 counterexample: encoding the request whose identifier is the
JSON `null` scalar and decoding the result succeeds but yields the
request with `id = none` — decode of encode is not the identity on it. -/
theorem c2_counterexample :
    decodeRequest true c2DecM (encodeRequest true c2EncM c2ReqNull) =
      .ok ⟨some (), none, ()⟩ ∧
    decodeRequest true c2DecM (encodeRequest true c2EncM c2ReqNull) ≠
      .ok c2ReqNull := by
  have h1 : decodeRequest true c2DecM (encodeRequest true c2EncM c2ReqNull) =
      .ok ⟨some (), none, ()⟩ := rfl
  refine ⟨h1, ?_⟩
  intro h
  have h2 : (Request.mk (some ()) none () : Request JVal Unit) = c2ReqNull :=
    Except.ok.inj (h1.symm.trans h)
  have h3 : (none : Option JVal) = some .null := congrArg Request.id h2
  exact Option.noConfusion h3

/-- Claim C2 as corrected: for every valid `Request` whose identifier,
when present, is not the JSON `null` scalar, and every valid `Response`,
in either encoding mode, decoding the encoding yields an equal value.
Validity of the application payloads is what the spec's codec contract
grants: the method round-trips through its own codec and its flattened
fields avoid the envelope's field names, and the outcome's payloads
decode back (result codec round-trips; an error kind is representable as
an `i16` without colliding with a reserved code). -/
theorem c2_wire_roundtrip (b : Bool)
    (encM : M → List (String × JVal))
    (decM : List (String × JVal) → Except String M)
    (encR : R → JVal) (decR : JVal → Except String R)
    (r : Request JVal M) (resp : Response JVal R)
    (hM : decM (encM r.method) = .ok r.method)
    (hkeys : ∀ kv ∈ encM r.method, kv.1 ≠ "jsonrpc" ∧ isIdKey b kv.1 = false)
    (hid : r.id ≠ some JVal.null)
    (hhr : resp.handler_response.decodesBack encR decR) :
    decodeRequest b decM (encodeRequest b encM r) = .ok r ∧
    decodeResponse b decR (encodeResponse b encR resp) = .ok resp :=
  ⟨decodeRequest_encodeRequest b encM decM r hM hkeys hid,
   decodeResponse_encodeResponse b encR decR resp hhr⟩

/-- The request of the C2 witness: identifier `3`. -/
def c2Req : Request JVal Unit := ⟨some (), some (.num 3), ()⟩

/-- The response of the C2 witness: identifier `3`, outcome the custom
error `Custom(-32000)` with message `X`. -/
def c2Resp : Response JVal Unit :=
  ⟨some (), .num 3, .Err ⟨.Custom (-32000), some "X"⟩⟩

/-- Claim C2 witness: the concrete request and response round-trip in
canonical mode through the concrete method and result codecs. -/
theorem c2_wire_roundtrip_witness :
    c2DecM (c2EncM c2Req.method) = .ok c2Req.method ∧
    (∀ kv ∈ c2EncM c2Req.method, kv.1 ≠ "jsonrpc" ∧ isIdKey true kv.1 = false) ∧
    c2Req.id ≠ some JVal.null ∧
    c2Resp.handler_response.decodesBack c2EncR c2DecR ∧
    (decodeRequest true c2DecM (encodeRequest true c2EncM c2Req) = .ok c2Req ∧
     decodeResponse true c2DecR (encodeResponse true c2EncR c2Resp) = .ok c2Resp) :=
  ⟨rfl, by decide, fun h => JVal.noConfusion (Option.some.inj h),
   by show (RpcErrorKind.Custom (-32000)).wireFaithful; decide,
   c2_wire_roundtrip true c2EncM c2DecM c2EncR c2DecR c2Req c2Resp rfl
     (by decide) (fun h => JVal.noConfusion (Option.some.inj h))
     (by show (RpcErrorKind.Custom (-32000)).wireFaithful; decide)⟩

end RoboRpc
